import Mathlib

/-!
Shallow embedding of `llm_writer_macro.py` (LibreOffice LLM writer macro).

The Python module is single-threaded glue code: a JSON-file config store
(`init_db_maybe`, `get_param`, `set_param`), a plain-text append log
(`_log_api_call`, `get_api_logs`), a cursor-window context extractor
(`get_context`), an HTTP LLM client (`call_llm`) and four command handlers
(`autocomplete`, `transform_text`, `show_logs`, `modify_config`).

Modelling conventions:
- The two files under `~/.llm_writer` are modelled as fields of a `World`
  record: the params file as an `Option FileVal` (absent, corrupt, or a
  parsed mapping), the log file as an `Option (List String)` of lines
  (as produced by `readlines()`, each line keeping its trailing newline).
- Host (UNO) text cursors are modelled as an anchor/position pair over the
  document's character list; `goLeft`/`goRight` clip at document bounds.
- Python exceptions are an explicit `PyErr` value; each handler's
  `try/except` boundary turns an error into an error-dialog event.
- The network is an oracle `Env.responder : RequestData → HttpResp`
  mirroring `urllib.request.urlopen`: a parsed 2xx response, a 2xx response
  whose body fails `json.loads`, an `HTTPError` with status and raw body,
  or a transport-level `URLError` (raised before any HTTP response exists).
- Modal dialogs are oracles in `Env` (`promptResult` for the instruction
  dialog, `configEdits` for the configuration dialog); observable actions
  are collected in a trace of `Ev` events.
-/

/-- A single-quote character, used when assembling Python-style string
representations for the log. -/
def squo : String := String.mk [Char.ofNat 39]

/-- The params file content: a JSON object, modelled as an insertion-ordered
association list from setting name to string value (Python `dict`). -/
def ConfigMap := List (String × String)

instance : DecidableEq ConfigMap := by
  unfold ConfigMap
  infer_instance

/-- Python `params.get(key)`: first binding of `k`, if any. -/
def lookupKey : ConfigMap → String → Option String
  | [], _ => none
  | (k', v') :: rest, k => if k' = k then some v' else lookupKey rest k

/-- Python `params[key] = value` on a dict: replace in place if the key is
bound, otherwise append at the end (dicts preserve insertion order). -/
def updateKey : ConfigMap → String → String → ConfigMap
  | [], k, v => [(k, v)]
  | (k', v') :: rest, k, v =>
      if k' = k then (k, v) :: rest else (k', v') :: updateKey rest k v

/-- The `AUTOCOMPLETE_DEFAULT_PROMPT` triple-quoted string from the source
(leading newline, trailing spaces and final newline preserved). -/
def autocompleteDefaultPrompt : String :=
  "\nContinue the text naturally at the [COMPLETE HERE] position using the surrounding context.\n" ++
  "Maintain consistent style/tone and preserve narrative flow.\n" ++
  "Generate only the next logical sequence of words without repeating existing content. \n" ++
  "Prioritize grammatical correctness and contextual coherence with both preceding and following text.\n" ++
  "Respect punctuacion and write consistently with best practices (for example: space and first letter of first word capitalized). \n" ++
  "Use the same language the text is written on.\n" ++
  "Don" ++ squo ++ "t announce what you are going to do, just do it (e.g: here you have, etc..).\n"

/-- Default mapping written by `init_db_maybe` when the params file is
absent (order matters: the config dialog displays it). -/
def defaultParams : ConfigMap :=
  [("OPENAI_ENDPOINT", "https://api.openai.com/v1/chat/completions"),
   ("OPENAI_API_KEY", ""),
   ("MODEL", "gpt-4o"),
   ("MAX_GENERATION_WORDS", "10"),
   ("CONTEXT_PREVIOUS_CHARS", "100"),
   ("CONTEXT_NEXT_CHARS", "100"),
   ("TEMPERATURE", "0.7"),
   ("AUTOCOMPLETE_ADDITIONAL_INSTRUCTIONS", autocompleteDefaultPrompt)]

/-- Content of the params file path: either a half-written/corrupt file
(`json.load` would raise) or a fully written mapping. -/
inductive FileVal where
  | corrupt
  | mapping (m : ConfigMap)
deriving DecidableEq

/-- Python exception classes relevant to the macro. -/
inductive PyErr where
  | valueErr
  | typeErr
  | keyErr
  | jsonErr
  | urlErr
  | httpErr (status : Nat) (body : String)
deriving DecidableEq

/-- The cursor/selection: a character range `[s, e)` into the document. -/
structure SelRange where
  s : Nat
  e : Nat
deriving DecidableEq

/-- Whole observable state: the two files under `~/.llm_writer` (params
file, its `.tmp` sibling, log file) plus the host document and the current
selection. -/
structure World where
  canonical : Option FileVal
  tmp : Option FileVal
  log : Option (List String)
  doc : String
  sel : SelRange
deriving DecidableEq

/-- Python `init_db_maybe`: create the params file with `defaultParams` and
the log file with the line `initializing...` when each is absent; leave
existing files (even corrupt ones) alone. -/
def initDbMaybe (w : World) : World :=
  { w with
    canonical :=
      match w.canonical with
      | none => some (FileVal.mapping defaultParams)
      | some v => some v,
    log :=
      match w.log with
      | none => some ["initializing...\n"]
      | some ls => some ls }

/-- Python `get_param`: run `init_db_maybe`, `json.load` the params file
(raising on a corrupt file), and return `params.get(key)`.  The returned
world records the side effects of `init_db_maybe`. -/
def getParamE (w : World) (k : String) : World × Except PyErr (Option String) :=
  match (initDbMaybe w).canonical with
  | some (FileVal.mapping m) => (initDbMaybe w, Except.ok (lookupKey m k))
  | _ => (initDbMaybe w, Except.error PyErr.jsonErr)

/-- One file-system step of `set_param`'s write sequence. `tmpOpenTrunc`
models `open(temp_path, "w")` truncating the side file (and any state in
which `json.dump` has emitted only part of the text); `tmpWriteFull` models
the completed `json.dump`; `rename` models `os.replace(temp_path,
PARAMS_PATH)`. -/
inductive FsOp where
  | tmpOpenTrunc
  | tmpWriteFull (m : ConfigMap)
  | rename
deriving DecidableEq

/-- Effect of a single file-system step on the world. -/
def applyFsOp (w : World) : FsOp → World
  | FsOp.tmpOpenTrunc => { w with tmp := some FileVal.corrupt }
  | FsOp.tmpWriteFull m => { w with tmp := some (FileVal.mapping m) }
  | FsOp.rename =>
      match w.tmp with
      | some v => { w with canonical := some v, tmp := none }
      | none => w

/-- Run a sequence of file-system steps (a crash is modelled by running
only a prefix of the sequence). -/
def applyFsOps (w : World) (ops : List FsOp) : World :=
  ops.foldl applyFsOp w

/-- The write sequence of `set_param` once the current mapping `m` has been
loaded: truncate the side file, write the updated full mapping there, then
atomically rename it over the canonical path. -/
def setParamOps (m : ConfigMap) (k v : String) : List FsOp :=
  [FsOp.tmpOpenTrunc, FsOp.tmpWriteFull (updateKey m k v), FsOp.rename]

/-- Python `set_param`: `init_db_maybe`, load the mapping (raising on a
corrupt params file), then run the atomic write sequence. -/
def setParamE (w : World) (k v : String) : World × Option PyErr :=
  match (initDbMaybe w).canonical with
  | some (FileVal.mapping m) => (applyFsOps (initDbMaybe w) (setParamOps m k v), none)
  | _ => (initDbMaybe w, some PyErr.jsonErr)

theorem initDb_doc (w : World) : (initDbMaybe w).doc = w.doc := rfl

theorem initDb_sel (w : World) : (initDbMaybe w).sel = w.sel := rfl

theorem initDb_canonical_some (w : World) (v : FileVal)
    (h : w.canonical = some v) : (initDbMaybe w).canonical = some v := by
  simp [initDbMaybe, h]

theorem initDb_idem (w : World) : initDbMaybe (initDbMaybe w) = initDbMaybe w := by
  cases w with
  | mk c t l d s => cases c <;> cases l <;> rfl

theorem lookup_update_self (m : ConfigMap) (k v : String) :
    lookupKey (updateKey m k v) k = some v := by
  induction m with
  | nil => simp [updateKey, lookupKey]
  | cons kv rest ih =>
      by_cases h : kv.1 = k
      · simp [updateKey, h, lookupKey]
      · simp [updateKey, h, lookupKey, ih]

/-- Digit list to number (most significant first). -/
def digitsToNat (ds : List Char) : Nat :=
  ds.foldl (fun a c => a * 10 + (c.toNat - 48)) 0

/-- All characters are ASCII digits. -/
def allDigits (ds : List Char) : Bool :=
  ds.all fun c => c.isDigit

/-- Model of Python `int(s)` on the string forms the macro stores: an
optional sign followed by digits.  (The builtin also strips whitespace and
accepts underscores; those forms are irrelevant to the claims.) -/
def parsePyInt (s : String) : Option Int :=
  let cs := s.toList
  let sgn : Int := match cs with | '-' :: _ => -1 | _ => 1
  let ds := match cs with | '-' :: t => t | '+' :: t => t | _ => cs
  if ds ≠ [] ∧ allDigits ds then some (sgn * digitsToNat ds) else none

/-- A parsed float, kept as the exact (unreduced) decimal fraction
`num / den`; the macro only parses temperatures and embeds them in the
request, so no arithmetic on them is ever needed. -/
structure PyFloat where
  num : Int
  den : Nat
deriving DecidableEq

/-- Model of Python `float(s)` on plain decimal literals (optional sign,
digits, optional fractional part), returned as the exact decimal fraction.
(The builtin also accepts exponents, `inf`/`nan` and padding; irrelevant
here.) -/
def parsePyFloat (s : String) : Option PyFloat :=
  let cs := s.toList
  let sgn : Int := match cs with | '-' :: _ => -1 | _ => 1
  let body := match cs with | '-' :: t => t | '+' :: t => t | _ => cs
  let intPart := body.takeWhile (fun c => c ≠ '.')
  let rest := body.dropWhile (fun c => c ≠ '.')
  match rest with
  | [] =>
      if intPart ≠ [] ∧ allDigits intPart then
        some { num := sgn * digitsToNat intPart, den := 1 }
      else none
  | '.' :: frac =>
      if allDigits intPart ∧ allDigits frac ∧ (intPart ≠ [] ∨ frac ≠ []) then
        some
          { num := sgn * (digitsToNat intPart * 10 ^ frac.length + digitsToNat frac),
            den := 10 ^ frac.length }
      else none
  | _ => none

/-- Python `int(x)` where `x` came from `params.get`: `int(None)` raises
`TypeError`, an unparsable string raises `ValueError`. -/
def pyIntOfOpt (o : Option String) : Except PyErr Int :=
  match o with
  | none => Except.error PyErr.typeErr
  | some s =>
      match parsePyInt s with
      | some n => Except.ok n
      | none => Except.error PyErr.valueErr

/-- Python `float(x)` where `x` came from `params.get`. -/
def pyFloatOfOpt (o : Option String) : Except PyErr PyFloat :=
  match o with
  | none => Except.error PyErr.typeErr
  | some s =>
      match parsePyFloat s with
      | some q => Except.ok q
      | none => Except.error PyErr.valueErr

/-- Python truthiness of `params.get(key)` results: `None` and `""` are
falsy (the `if not api_key:` test). -/
def pyFalsyStr (o : Option String) : Bool :=
  match o with
  | none => true
  | some s => decide (s = "")

/-- A parsed JSON value (`json.loads` result). -/
inductive Json where
  | null
  | bool (b : Bool)
  | num (q : ℚ)
  | str (s : String)
  | arr (xs : List Json)
  | obj (fields : List (String × Json))

/-- Python truthiness of a parsed JSON value (the `if response:` test). -/
def pyTruthy : Json → Bool
  | Json.null => false
  | Json.bool b => b
  | Json.num q => decide (q ≠ 0)
  | Json.str s => decide (s ≠ "")
  | Json.arr [] => false
  | Json.arr (_ :: _) => true
  | Json.obj [] => false
  | Json.obj (_ :: _) => true

/-- Dict indexing `j[k]`: defined only on objects with the key bound
(anything else raises, which the handlers surface as an error dialog). -/
def jget : Json → String → Option Json
  | Json.obj fs, k => jgetFields fs k
  | _, _ => none
where jgetFields : List (String × Json) → String → Option Json
  | [], _ => none
  | (k', v) :: rest, k => if k' = k then some v else jgetFields rest k

/-- List indexing `j[i]` on a parsed JSON array. -/
def jidx : Json → Nat → Option Json
  | Json.arr xs, i => xs.get? i
  | _, _ => none

/-- The extraction `response["choices"][0]["message"]["content"]`, which
must produce a string for `cursor.setString`; any failure along the path
raises (KeyError/IndexError/TypeError), collapsed here to `none`. -/
def extractContent (j : Json) : Option String :=
  match (((jget j "choices").bind (fun c => jidx c 0)).bind
      (fun c0 => jget c0 "message")).bind (fun msg => jget msg "content") with
  | some (Json.str s) => some s
  | _ => none

/-- One entry of the `messages` array of the request body. -/
structure Msg where
  role : String
  content : Option String
deriving DecidableEq

/-- The request dict built by the command handlers.  `maxTokens` is `none`
for `transform_text`, whose dict has no `max_tokens` key. -/
structure RequestData where
  model : Option String
  messages : List Msg
  temperature : PyFloat
  maxTokens : Option Int
deriving DecidableEq

/-- Stand-in for Python `str()` of an optional string (`None` or a
single-quoted literal), used only to render log text. -/
def reprOptStr : Option String → String
  | none => "None"
  | some s => squo ++ s ++ squo

/-- Stand-in for Python `str()` of a rational number in the log text. -/
def ratStr (q : ℚ) : String :=
  toString q.num ++ "/" ++ toString q.den

/-- Stand-in for Python `str()` of a parsed float in the log text. -/
def pyFloatStr (q : PyFloat) : String :=
  toString q.num ++ "/" ++ toString q.den

/-- Stand-in for Python `str()` of one message dict. -/
def reprMsg (msg : Msg) : String :=
  "\x7b" ++ squo ++ "role" ++ squo ++ ": " ++ squo ++ msg.role ++ squo ++
  ", " ++ squo ++ "content" ++ squo ++ ": " ++ reprOptStr msg.content ++ "\x7d"

/-- Stand-in for Python `str()` of the messages list. -/
def reprMsgs : List Msg → String
  | [] => ""
  | [msg] => reprMsg msg
  | msg :: rest => reprMsg msg ++ ", " ++ reprMsgs rest

/-- Stand-in for Python `str(data)`: the request dict as logged by
`_log_api_call` (`f"Request: {request}"`). -/
def reprRequest (d : RequestData) : String :=
  "\x7b" ++ squo ++ "model" ++ squo ++ ": " ++ reprOptStr d.model ++
  ", " ++ squo ++ "messages" ++ squo ++ ": [" ++ reprMsgs d.messages ++ "]" ++
  ", " ++ squo ++ "temperature" ++ squo ++ ": " ++ pyFloatStr d.temperature ++
  (match d.maxTokens with
   | none => ""
   | some n => ", " ++ squo ++ "max_tokens" ++ squo ++ ": " ++ toString n) ++
  "\x7d"

mutual
/-- Stand-in for Python `str()` of a parsed JSON value in the log text. -/
def reprJson : Json → String
  | Json.null => "None"
  | Json.bool b => if b then "True" else "False"
  | Json.num q => ratStr q
  | Json.str s => squo ++ s ++ squo
  | Json.arr xs => "[" ++ reprJsonList xs ++ "]"
  | Json.obj fs => "\x7b" ++ reprJsonFields fs ++ "\x7d"

/-- Render a JSON array body. -/
def reprJsonList : List Json → String
  | [] => ""
  | [j] => reprJson j
  | j :: rest => reprJson j ++ ", " ++ reprJsonList rest

/-- Render a JSON object body. -/
def reprJsonFields : List (String × Json) → String
  | [] => ""
  | [(k, v)] => squo ++ k ++ squo ++ ": " ++ reprJson v
  | (k, v) :: rest => squo ++ k ++ squo ++ ": " ++ reprJson v ++ ", " ++ reprJsonFields rest
end

/-- The lines one `_log_api_call` invocation appends to the log file, as
later split by `readlines()` (the first `f.write` contains an embedded
newline, so one entry is five lines; `now`, `req` and `resp` are assumed
newline-free, which holds for the serialized request dicts). -/
def logEntryLines (now endpoint req resp : String) (status : Nat) : List String :=
  ["Timestamp: " ++ now ++ "\n",
   " Endpoint: " ++ endpoint ++ " Status Code: " ++ toString status ++ "\n",
   "Request: " ++ req ++ "\n",
   "Response: " ++ resp ++ "\n",
   String.mk (List.replicate 40 '-') ++ "\n"]

/-- Python `_log_api_call`: append one entry to the log file (`open` with
mode `"a"` creates the file when absent). -/
def logApiCall (w : World) (now endpoint req resp : String) (status : Nat) : World :=
  { w with log := some ((w.log.getD []) ++ logEntryLines now endpoint req resp status) }

/-- Python `get_api_logs`: `[]` when the log file does not exist, otherwise
`readlines()[-limit:]` — the last `limit` lines in file (chronological)
order; Python slicing makes `-0` mean "the whole list". -/
def getApiLogs (log : Option (List String)) (limit : Nat) : List String :=
  match log with
  | none => []
  | some ls => if limit = 0 then ls else ls.drop (ls.length - limit)

/-- A UNO text cursor: an anchor and a moving position (character offsets
into the document).  `createTextCursorByRange(cursor)` yields one spanning
the same range. -/
structure TCursor where
  anchor : Nat
  pos : Nat

/-- UNO `text.createTextCursorByRange(range)`. -/
def mkCursorByRange (r : SelRange) : TCursor :=
  { anchor := r.s, pos := r.e }

/-- UNO `cursor.goLeft(n, True)`: move the position left by `n`, clipped at
the document start (a negative count moves nothing). -/
def goLeft (c : TCursor) (n : Int) : TCursor :=
  { c with pos := c.pos - n.toNat }

/-- UNO `cursor.goRight(n, True)`: move the position right by `n`, clipped
at the document end `len`. -/
def goRight (len : Nat) (c : TCursor) (n : Int) : TCursor :=
  { c with pos := min (c.pos + n.toNat) len }

/-- UNO `cursor.getString()`: the text between the two ends of the cursor. -/
def cGetString (doc : String) (c : TCursor) : String :=
  String.mk ((doc.toList.drop (min c.anchor c.pos)).take
    (max c.anchor c.pos - min c.anchor c.pos))

/-- The selected text `cursor.getString()` of the current selection. -/
def rangeGetString (doc : String) (r : SelRange) : String :=
  String.mk ((doc.toList.drop r.s).take (r.e - r.s))

/-- UNO `cursor.setString(s)`: replace the selection's characters with `s`;
the cursor then covers the inserted text. -/
def docSet (w : World) (s : String) : World :=
  { w with
    doc := String.mk (w.doc.toList.take w.sel.s ++ s.toList ++ w.doc.toList.drop w.sel.e),
    sel := { s := w.sel.s, e := w.sel.s + s.toList.length } }

/-- Python `get_context`: read the two window sizes from config (both via
`int(get_param(...))`, which can raise), then read the text reached by
`goLeft`/`goRight` from fresh cursors spanning the current selection. -/
def getContextE (w : World) : World × Except PyErr (String × String) :=
  match getParamE w "CONTEXT_PREVIOUS_CHARS" with
  | (w1, Except.error e) => (w1, Except.error e)
  | (w1, Except.ok ps) =>
    match pyIntOfOpt ps with
    | Except.error e => (w1, Except.error e)
    | Except.ok np =>
      match getParamE w1 "CONTEXT_NEXT_CHARS" with
      | (w2, Except.error e) => (w2, Except.error e)
      | (w2, Except.ok ns) =>
        match pyIntOfOpt ns with
        | Except.error e => (w2, Except.error e)
        | Except.ok nn =>
          let len := w2.doc.toList.length
          let prev := cGetString w2.doc (goLeft (mkCursorByRange w2.sel) np)
          let next := cGetString w2.doc (goRight len (mkCursorByRange w2.sel) nn)
          (w2, Except.ok (prev, next))

/-- Outcome of `urllib.request.urlopen` on the built request: a 2xx
response whose body parses as JSON, a 2xx response whose body does not
parse (`json.loads` raises), an `HTTPError` carrying status and raw body,
or a transport failure (`URLError`) raised before any response exists. -/
inductive HttpResp where
  | success (status : Nat) (body : Json)
  | successBad (status : Nat)
  | httpError (status : Nat) (body : String)
  | transportError

/-- Environment oracles: the network, the wall clock, and the two modal
dialogs (`show_input_dialog_with_checkbox` returns `(None, False)` on
cancel, modelled as `none`; the configuration dialog's edited field values
are `configEdits`, `none` meaning cancel). -/
structure Env where
  responder : RequestData → HttpResp
  now : String
  promptResult : Option (String × Bool)
  configEdits : Option (List String)

/-- Observable actions of one command invocation, in order. -/
inductive Ev where
  | http (data : RequestData)
  | prompt
  | configDialog
  | message (s : String)
  | errorDialog (e : PyErr)
deriving DecidableEq

/-- The `show_message` call in each handler's `except` block (the text also
carries a traceback; only the fact of the dialog matters here). -/
def errorTrace (e : PyErr) : List Ev :=
  [Ev.errorDialog e]

/-- Python `call_llm`: read the endpoint and the API key from config, issue
the HTTP POST, and on a parsed response or an `HTTPError` log exactly one
entry before returning or re-raising; a `Request` with a `None` URL raises
before any HTTP traffic.  The event `Ev.http data` marks the actual network
attempt. -/
def callLlm (w : World) (env : Env) (data : RequestData) :
    World × List Ev × Except PyErr Json :=
  match getParamE w "OPENAI_ENDPOINT" with
  | (w1, Except.error e) => (w1, [], Except.error e)
  | (w1, Except.ok none) => (w1, [], Except.error PyErr.valueErr)
  | (w1, Except.ok (some url)) =>
    match getParamE w1 "OPENAI_API_KEY" with
    | (w2, Except.error e) => (w2, [], Except.error e)
    | (w2, Except.ok _key) =>
      match env.responder data with
      | HttpResp.success status body =>
          (logApiCall w2 env.now url (reprRequest data) (reprJson body) status,
           [Ev.http data], Except.ok body)
      | HttpResp.successBad _status =>
          (w2, [Ev.http data], Except.error PyErr.jsonErr)
      | HttpResp.httpError status body =>
          (logApiCall w2 env.now url (reprRequest data) body status,
           [Ev.http data], Except.error (PyErr.httpErr status body))
      | HttpResp.transportError =>
          (w2, [Ev.http data], Except.error PyErr.urlErr)

/-- The eight keys `modify_config` persists on confirm, in source order. -/
def fixedKeys : List String :=
  ["OPENAI_ENDPOINT", "OPENAI_API_KEY", "MODEL", "MAX_GENERATION_WORDS",
   "CONTEXT_PREVIOUS_CHARS", "CONTEXT_NEXT_CHARS", "TEMPERATURE",
   "AUTOCOMPLETE_ADDITIONAL_INSTRUCTIONS"]

/-- The dialog's edited field values written back into the params dict
(field `i` edits key `i`; keys beyond the supplied edits keep their
values). -/
def applyEdits (m : ConfigMap) (vals : List String) : ConfigMap :=
  (m.zip vals).map (fun kv => (kv.1.1, kv.2)) ++ m.drop vals.length

/-- The `set_param(k, params[k])` sequence at the end of `modify_config`;
a missing key raises `KeyError` mid-sequence. -/
def setFixedParams (w : World) (p : ConfigMap) : List String → World × Option PyErr
  | [] => (w, none)
  | k :: rest =>
    match lookupKey p k with
    | none => (w, some PyErr.keyErr)
    | some v =>
      match setParamE w k v with
      | (w1, some e) => (w1, some e)
      | (w1, none) => setFixedParams w1 p rest

/-- Python `modify_config`: `init_db_maybe`, `json.load` the params file
(raising on a corrupt one before any dialog appears), run the dialog, and
on confirm write every field back via `set_param` and acknowledge.  The
caller sees a raised error in the third component (the function has no
`try/except` of its own). -/
def modifyConfig (w : World) (env : Env) : World × List Ev × Option PyErr :=
  match (initDbMaybe w).canonical with
  | some (FileVal.mapping m) =>
    match env.configEdits with
    | none => (initDbMaybe w, [Ev.configDialog], none)
    | some vals =>
      match setFixedParams (initDbMaybe w) (applyEdits m vals) fixedKeys with
      | (w2, some e) => (w2, [Ev.configDialog], some e)
      | (w2, none) =>
          (w2, [Ev.configDialog, Ev.message "Configuration updated successfully!"], none)
  | _ => (initDbMaybe w, [], some PyErr.jsonErr)

/-- Python `autocomplete`, including its `try/except` boundary: gate on the
API key (opening `modify_config` when unset), extract context, format the
unused `max_words_prompt` local (its `get_param` side effect kept), build
the chat request, call the LLM, and on a truthy parsed response replace the
cursor range with `choices[0].message.content`. -/
def autocomplete (w : World) (env : Env) : World × List Ev :=
  match getParamE w "OPENAI_API_KEY" with
  | (w1, Except.error e) => (w1, errorTrace e)
  | (w1, Except.ok key) =>
    if pyFalsyStr key then
      match modifyConfig w1 env with
      | (w2, evs, some e) => (w2, evs ++ errorTrace e)
      | (w2, evs, none) => (w2, evs)
    else
      match getContextE w1 with
      | (w2, Except.error e) => (w2, errorTrace e)
      | (w2, Except.ok pn) =>
        match getParamE w2 "MAX_GENERATION_WORDS" with
        | (w3, Except.error e) => (w3, errorTrace e)
        | (w3, Except.ok _maxWordsLocal) =>
          match getParamE w3 "MODEL" with
          | (w4, Except.error e) => (w4, errorTrace e)
          | (w4, Except.ok mdl) =>
            match getParamE w4 "AUTOCOMPLETE_ADDITIONAL_INSTRUCTIONS" with
            | (w5, Except.error e) => (w5, errorTrace e)
            | (w5, Except.ok sysC) =>
              match getParamE w5 "TEMPERATURE" with
              | (w6, Except.error e) => (w6, errorTrace e)
              | (w6, Except.ok tempS) =>
                match pyFloatOfOpt tempS with
                | Except.error e => (w6, errorTrace e)
                | Except.ok t =>
                  match getParamE w6 "MAX_GENERATION_WORDS" with
                  | (w7, Except.error e) => (w7, errorTrace e)
                  | (w7, Except.ok mws) =>
                    match pyIntOfOpt mws with
                    | Except.error e => (w7, errorTrace e)
                    | Except.ok nW =>
                      let data : RequestData :=
                        { model := mdl,
                          messages :=
                            [{ role := "system", content := sysC },
                             { role := "user",
                               content := some (pn.1 ++ "[COMPLETE HERE]" ++ pn.2) }],
                          temperature := t,
                          maxTokens := some (nW * 4) }
                      match callLlm w7 env data with
                      | (w8, evs, Except.error e) => (w8, evs ++ errorTrace e)
                      | (w8, evs, Except.ok j) =>
                        if pyTruthy j then
                          match extractContent j with
                          | some s => (docSet w8 s, evs)
                          | none => (w8, evs ++ errorTrace PyErr.keyErr)
                        else (w8, evs)

/-- The fallback instruction substituted when the user confirms the
transform dialog with an empty instruction (`if not instruction:`). -/
def defaultTransformInstr : String :=
  "Perform the task present after the " ++ squo ++ "Original Text:" ++ squo

/-- The user-role content of the transform request. -/
def transformUserContent (prevC selectedText nextC : String) : String :=
  "Previous context: " ++ prevC ++ "\n" ++
  "Original text: " ++ selectedText ++ "\n" ++
  "Next context: " ++ nextC ++ "\n\n" ++
  "Transformed text:"

/-- Python `transform_text`, including its `try/except` boundary: gate on
the API key, read the selection and its context, no-op on an empty
selection, prompt for an instruction (cancel aborts; an empty confirmed
instruction falls back to `defaultTransformInstr`), call the LLM, and on a
truthy parsed response replace the selection (optionally keeping the
original, with the marker characters). -/
def transform_text (w : World) (env : Env) : World × List Ev :=
  match getParamE w "OPENAI_API_KEY" with
  | (w1, Except.error e) => (w1, errorTrace e)
  | (w1, Except.ok key) =>
    if pyFalsyStr key then
      match modifyConfig w1 env with
      | (w2, evs, some e) => (w2, evs ++ errorTrace e)
      | (w2, evs, none) => (w2, evs)
    else
      let selectedText := rangeGetString w1.doc w1.sel
      match getContextE w1 with
      | (w2, Except.error e) => (w2, errorTrace e)
      | (w2, Except.ok pn) =>
        if selectedText = "" then (w2, [])
        else
          match env.promptResult with
          | none => (w2, [Ev.prompt])
          | some (instr0, keepOrig) =>
            let instr := if instr0 = "" then defaultTransformInstr else instr0
            match getParamE w2 "MODEL" with
            | (w3, Except.error e) => (w3, Ev.prompt :: errorTrace e)
            | (w3, Except.ok mdl) =>
              match getParamE w3 "TEMPERATURE" with
              | (w4, Except.error e) => (w4, Ev.prompt :: errorTrace e)
              | (w4, Except.ok tempS) =>
                match pyFloatOfOpt tempS with
                | Except.error e => (w4, Ev.prompt :: errorTrace e)
                | Except.ok t =>
                  let data : RequestData :=
                    { model := mdl,
                      messages :=
                        [{ role := "system", content := some instr },
                         { role := "user",
                           content := some (transformUserContent pn.1 selectedText pn.2) }],
                      temperature := t,
                      maxTokens := none }
                  match callLlm w4 env data with
                  | (w5, evs, Except.error e) => (w5, Ev.prompt :: (evs ++ errorTrace e))
                  | (w5, evs, Except.ok j) =>
                    if pyTruthy j then
                      match extractContent j with
                      | some s =>
                          let newText :=
                            if keepOrig then
                              selectedText ++ "\n\n↦" ++ s ++ "↤"
                            else "↦" ++ s ++ "↤"
                          (docSet w5 newText, Ev.prompt :: evs)
                      | none => (w5, Ev.prompt :: (evs ++ errorTrace PyErr.keyErr))
                    else (w5, Ev.prompt :: evs)

/-- Python `show_logs`: read up to 10 recent log lines; show the explicit
notice when none, otherwise one formatted block. -/
def show_logs (w : World) : World × List Ev :=
  if getApiLogs w.log 10 = [] then (w, [Ev.message "No API logs found"])
  else
    (w, [Ev.message ("API Logs:\n\n" ++
      String.join ((getApiLogs w.log 10).map (fun l => l ++ "\n")))])


theorem getParamE_fst (w : World) (k : String) :
    (getParamE w k).1 = initDbMaybe w := by
  unfold getParamE
  cases hc : (initDbMaybe w).canonical with
  | none => rfl
  | some v => cases v <;> rfl

theorem getParamE_stable (w : World) (m : ConfigMap) (k : String)
    (hW : initDbMaybe w = w) (h : w.canonical = some (FileVal.mapping m)) :
    getParamE w k = (w, Except.ok (lookupKey m k)) := by
  unfold getParamE
  rw [hW, h]

theorem setParamOps_run (w : World) (m : ConfigMap) (k v : String) :
    applyFsOps w (setParamOps m k v) =
      { w with canonical := some (FileVal.mapping (updateKey m k v)), tmp := none } := by
  rfl

theorem applyFsOp_doc (w : World) (op : FsOp) : (applyFsOp w op).doc = w.doc := by
  cases op with
  | rename => unfold applyFsOp; cases htmp : w.tmp <;> rfl
  | tmpOpenTrunc => rfl
  | tmpWriteFull m => rfl

theorem applyFsOp_sel (w : World) (op : FsOp) : (applyFsOp w op).sel = w.sel := by
  cases op with
  | rename => unfold applyFsOp; cases htmp : w.tmp <;> rfl
  | tmpOpenTrunc => rfl
  | tmpWriteFull m => rfl

theorem applyFsOps_doc (ops : List FsOp) : ∀ w : World, (applyFsOps w ops).doc = w.doc := by
  induction ops with
  | nil => intro w; rfl
  | cons op rest ih =>
      intro w
      show (applyFsOps (applyFsOp w op) rest).doc = w.doc
      rw [ih (applyFsOp w op), applyFsOp_doc]

theorem applyFsOps_sel (ops : List FsOp) : ∀ w : World, (applyFsOps w ops).sel = w.sel := by
  induction ops with
  | nil => intro w; rfl
  | cons op rest ih =>
      intro w
      show (applyFsOps (applyFsOp w op) rest).sel = w.sel
      rw [ih (applyFsOp w op), applyFsOp_sel]

theorem setParamE_doc (w : World) (k v : String) :
    (setParamE w k v).1.doc = w.doc := by
  unfold setParamE
  cases hc : (initDbMaybe w).canonical with
  | none => exact initDb_doc w
  | some fv =>
      cases fv with
      | corrupt => exact initDb_doc w
      | mapping m =>
          show (applyFsOps (initDbMaybe w) (setParamOps m k v)).doc = w.doc
          rw [applyFsOps_doc, initDb_doc]

theorem setParamE_sel (w : World) (k v : String) :
    (setParamE w k v).1.sel = w.sel := by
  unfold setParamE
  cases hc : (initDbMaybe w).canonical with
  | none => exact initDb_sel w
  | some fv =>
      cases fv with
      | corrupt => exact initDb_sel w
      | mapping m =>
          show (applyFsOps (initDbMaybe w) (setParamOps m k v)).sel = w.sel
          rw [applyFsOps_sel, initDb_sel]

theorem setFixedParams_doc (ks : List String) :
    ∀ (w : World) (p : ConfigMap), (setFixedParams w p ks).1.doc = w.doc := by
  induction ks with
  | nil => intro w p; rfl
  | cons k rest ih =>
      intro w p
      unfold setFixedParams
      split
      · rfl
      · next v heq =>
          split
          · next w1 e hs =>
              have := setParamE_doc w k v
              rw [hs] at this
              exact this
          · next w1 hs =>
              have hd : w1.doc = w.doc := by
                have := setParamE_doc w k v
                rw [hs] at this
                exact this
              rw [ih w1 p, hd]

theorem setFixedParams_sel (ks : List String) :
    ∀ (w : World) (p : ConfigMap), (setFixedParams w p ks).1.sel = w.sel := by
  induction ks with
  | nil => intro w p; rfl
  | cons k rest ih =>
      intro w p
      unfold setFixedParams
      split
      · rfl
      · next v heq =>
          split
          · next w1 e hs =>
              have := setParamE_sel w k v
              rw [hs] at this
              exact this
          · next w1 hs =>
              have hd : w1.sel = w.sel := by
                have := setParamE_sel w k v
                rw [hs] at this
                exact this
              rw [ih w1 p, hd]

theorem modifyConfig_doc (w : World) (env : Env) :
    (modifyConfig w env).1.doc = w.doc := by
  unfold modifyConfig
  split
  · next m heq =>
      split
      · exact initDb_doc w
      · next vals heq2 =>
          split
          · next w2 e hs =>
              have := setFixedParams_doc fixedKeys (initDbMaybe w) (applyEdits m vals)
              rw [hs] at this
              rw [this, initDb_doc]
          · next w2 hs =>
              have := setFixedParams_doc fixedKeys (initDbMaybe w) (applyEdits m vals)
              rw [hs] at this
              rw [this, initDb_doc]
  · exact initDb_doc w

/-- The events of `modify_config` when the params file holds a mapping:
the dialog always appears, optionally followed by the success message. -/
theorem modifyConfig_evs (w : World) (env : Env) (m : ConfigMap)
    (h : (initDbMaybe w).canonical = some (FileVal.mapping m)) :
    (modifyConfig w env).2.1 = [Ev.configDialog] ∨
    (modifyConfig w env).2.1 =
      [Ev.configDialog, Ev.message "Configuration updated successfully!"] := by
  unfold modifyConfig
  split
  · next m1 heq =>
      split
      · exact Or.inl rfl
      · next vals heq2 =>
          split
          · exact Or.inl rfl
          · exact Or.inr rfl
  · next hfail =>
      exact absurd h (by simp_all)

theorem prefix_of_triple {α : Type} (a b c : α) (p : List α) (h : p <+: [a, b, c]) :
    p = [] ∨ p = [a] ∨ p = [a, b] ∨ p = [a, b, c] := by
  obtain ⟨t, ht⟩ := h
  rcases p with _ | ⟨x, _ | ⟨y, _ | ⟨z, rest⟩⟩⟩
  · exact Or.inl rfl
  · simp at ht
    exact Or.inr (Or.inl (by simp [ht.1]))
  · simp at ht
    exact Or.inr (Or.inr (Or.inl (by simp [ht.1, ht.2.1])))
  · simp at ht
    obtain ⟨hx, hy, hz, hr⟩ := ht
    exact Or.inr (Or.inr (Or.inr (by simp [hx, hy, hz, hr.1])))

/-- Claim C3: `set_param` writes the updated full mapping to the `.tmp`
side path and only then renames it over the canonical path; a crash at any
point before the rename (any rename-free prefix of the write sequence)
leaves the previously valid mapping intact at the canonical path, no
prefix ever exposes a partially written file there, and the completed
sequence installs the updated mapping. -/
theorem set_param_atomic (w : World) (m : ConfigMap) (k v : String)
    (h : w.canonical = some (FileVal.mapping m)) :
    setParamE w k v = (applyFsOps (initDbMaybe w) (setParamOps m k v), none) ∧
    (∀ p, p <+: setParamOps m k v → FsOp.rename ∉ p →
      (applyFsOps (initDbMaybe w) p).canonical = some (FileVal.mapping m)) ∧
    (∀ p, p <+: setParamOps m k v →
      (applyFsOps (initDbMaybe w) p).canonical = some (FileVal.mapping m) ∨
      (applyFsOps (initDbMaybe w) p).canonical =
        some (FileVal.mapping (updateKey m k v))) ∧
    (applyFsOps (initDbMaybe w) (setParamOps m k v)).canonical =
      some (FileVal.mapping (updateKey m k v)) := by
  have h' : (initDbMaybe w).canonical = some (FileVal.mapping m) :=
    initDb_canonical_some w _ h
  refine ⟨?_, ?_, ?_, ?_⟩
  · unfold setParamE
    rw [h']
  · intro p hp hn
    rcases prefix_of_triple _ _ _ p hp with rfl | rfl | rfl | rfl
    · exact h'
    · exact h'
    · exact h'
    · exact absurd (by simp [setParamOps]) hn
  · intro p hp
    rcases prefix_of_triple _ _ _ p hp with rfl | rfl | rfl | rfl
    · exact Or.inl h'
    · exact Or.inl h'
    · exact Or.inl h'
    · refine Or.inr ?_
      show (applyFsOps (initDbMaybe w) (setParamOps m k v)).canonical = _
      rw [setParamOps_run]
  · rw [setParamOps_run]

/-- Concrete instance of `set_param_atomic`: a one-key store, crash after
the temp write (prefix without the rename) keeps the old mapping; the full
sequence installs the new one. -/
theorem set_param_atomic_witness :
    (applyFsOps
        (initDbMaybe
          { canonical := some (FileVal.mapping [("K", "old")]), tmp := none,
            log := none, doc := "", sel := { s := 0, e := 0 } })
        [FsOp.tmpOpenTrunc, FsOp.tmpWriteFull (updateKey [("K", "old")] "K" "new")]).canonical =
      some (FileVal.mapping [("K", "old")]) ∧
    (applyFsOps
        (initDbMaybe
          { canonical := some (FileVal.mapping [("K", "old")]), tmp := none,
            log := none, doc := "", sel := { s := 0, e := 0 } })
        (setParamOps [("K", "old")] "K" "new")).canonical =
      some (FileVal.mapping (updateKey [("K", "old")] "K" "new")) := by
  have h := set_param_atomic
    { canonical := some (FileVal.mapping [("K", "old")]), tmp := none,
      log := none, doc := "", sel := { s := 0, e := 0 } }
    [("K", "old")] "K" "new" rfl
  refine ⟨?_, h.2.2.2⟩
  exact h.2.1 _ ⟨[FsOp.rename], rfl⟩ (by decide)

/-- Claim C9: a `set_param(key, value)` immediately followed by
`get_param(key)` returns exactly the value just written (for any starting
state whose params file is not corrupt; `set_param` raises nothing and
`get_param` answers from the just-installed mapping). -/
theorem set_then_get (w : World) (k v : String)
    (h : w.canonical ≠ some FileVal.corrupt) :
    (setParamE w k v).2 = none ∧
    (getParamE (setParamE w k v).1 k).2 = Except.ok (some v) := by
  have hmap : ∃ m, (initDbMaybe w).canonical = some (FileVal.mapping m) := by
    cases hc : w.canonical with
    | none => exact ⟨defaultParams, by simp [initDbMaybe, hc]⟩
    | some fv =>
        cases fv with
        | corrupt => exact absurd hc h
        | mapping m => exact ⟨m, by simp [initDbMaybe, hc]⟩
  obtain ⟨m, hm⟩ := hmap
  have hset : setParamE w k v =
      (applyFsOps (initDbMaybe w) (setParamOps m k v), none) := by
    unfold setParamE
    rw [hm]
  rw [hset]
  refine ⟨rfl, ?_⟩
  rw [setParamOps_run]
  unfold getParamE
  simp [initDbMaybe, lookup_update_self]

/-- Concrete instance of `set_then_get`: writing then reading `MODEL`. -/
theorem set_then_get_witness :
    (setParamE
        { canonical := none, tmp := none, log := none, doc := "",
          sel := { s := 0, e := 0 } } "MODEL" "gpt-x").2 = none ∧
    (getParamE
        (setParamE
          { canonical := none, tmp := none, log := none, doc := "",
            sel := { s := 0, e := 0 } } "MODEL" "gpt-x").1 "MODEL").2 =
      Except.ok (some "gpt-x") :=
  set_then_get
    { canonical := none, tmp := none, log := none, doc := "",
      sel := { s := 0, e := 0 } } "MODEL" "gpt-x" (by simp)

theorem getParamE_eq (w : World) (m : ConfigMap) (k : String)
    (h : (initDbMaybe w).canonical = some (FileVal.mapping m)) :
    getParamE w k = (initDbMaybe w, Except.ok (lookupKey m k)) := by
  unfold getParamE
  rw [h]

theorem getParamE_eq2 (w : World) (m : ConfigMap) (k : String)
    (h : (initDbMaybe w).canonical = some (FileVal.mapping m)) :
    getParamE (initDbMaybe w) k = (initDbMaybe w, Except.ok (lookupKey m k)) := by
  have h2 : (initDbMaybe (initDbMaybe w)).canonical = some (FileVal.mapping m) := by
    rw [initDb_idem]
    exact h
  have := getParamE_eq (initDbMaybe w) m k h2
  rw [initDb_idem] at this
  exact this

theorem cGetString_left (doc : String) (p N : Nat) :
    cGetString doc (goLeft (mkCursorByRange { s := p, e := p }) (N : Int)) =
      String.mk ((doc.toList.take p).drop (p - N)) := by
  unfold cGetString goLeft mkCursorByRange
  simp only [Int.toNat_natCast]
  have hmin : min p (p - N) = p - N := min_eq_right (Nat.sub_le p N)
  have hmax : max p (p - N) = p := max_eq_left (Nat.sub_le p N)
  rw [hmin, hmax]
  congr 1
  rw [List.drop_take]

theorem cGetString_right (doc : String) (p M : Nat)
    (hp : p ≤ doc.toList.length) :
    cGetString doc (goRight doc.toList.length (mkCursorByRange { s := p, e := p }) (M : Int)) =
      String.mk ((doc.toList.drop p).take M) := by
  unfold cGetString goRight mkCursorByRange
  simp only [Int.toNat_natCast]
  have hmin : min p (min (p + M) doc.toList.length) = p := by omega
  have hmax : max p (min (p + M) doc.toList.length) = min (p + M) doc.toList.length := by
    omega
  rw [hmin, hmax]
  congr 1
  apply List.take_eq_take.mpr
  rw [List.length_drop]
  omega

/-- Claim C6: with configured window sizes `N` (CONTEXT_PREVIOUS_CHARS) and
`M` (CONTEXT_NEXT_CHARS) and the cursor at position `p`, `get_context`
returns exactly the text immediately before the cursor (clipped at the
document start, at most `N` characters) and immediately after it (clipped
at the document end, at most `M` characters), and leaves the document and
the selection unchanged. -/
theorem get_context_clipped (w : World) (m : ConfigMap) (ps ns : String)
    (N M p : Nat)
    (h1 : w.canonical = some (FileVal.mapping m))
    (hp : lookupKey m "CONTEXT_PREVIOUS_CHARS" = some ps)
    (hpn : parsePyInt ps = some (N : Int))
    (hn : lookupKey m "CONTEXT_NEXT_CHARS" = some ns)
    (hnn : parsePyInt ns = some (M : Int))
    (hsel : w.sel = { s := p, e := p })
    (hplen : p ≤ w.doc.toList.length) :
    getContextE w =
      (initDbMaybe w,
       Except.ok
         (String.mk ((w.doc.toList.take p).drop (p - N)),
          String.mk ((w.doc.toList.drop p).take M))) ∧
    ((w.doc.toList.take p).drop (p - N)).length ≤ N ∧
    ((w.doc.toList.drop p).take M).length ≤ M ∧
    (initDbMaybe w).doc = w.doc ∧ (initDbMaybe w).sel = w.sel := by
  have h1' : (initDbMaybe w).canonical = some (FileVal.mapping m) :=
    initDb_canonical_some w _ h1
  have gp1 := getParamE_eq w m "CONTEXT_PREVIOUS_CHARS" h1'
  have gp2 := getParamE_eq2 w m "CONTEXT_NEXT_CHARS" h1'
  refine ⟨?_, ?_, ?_, initDb_doc w, initDb_sel w⟩
  · unfold getContextE
    simp only [gp1, gp2, hp, hn, pyIntOfOpt, hpn, hnn]
    rw [initDb_doc, initDb_sel, hsel]
    rw [cGetString_left w.doc p N, cGetString_right w.doc p M hplen]
  · rw [List.length_drop, List.length_take]
    omega
  · rw [List.length_take, List.length_drop]
    omega

/-- Concrete store and world for the `get_context_clipped` witness. -/
def mCtx : ConfigMap :=
  [("CONTEXT_PREVIOUS_CHARS", "3"), ("CONTEXT_NEXT_CHARS", "2")]

/-- World for the `get_context_clipped` witness: cursor after `Hello`. -/
def wCtx : World :=
  { canonical := some (FileVal.mapping mCtx), tmp := none, log := none,
    doc := "Hello world", sel := { s := 5, e := 5 } }

/-- Concrete instance of `get_context_clipped`: windows 3/2 around
position 5 of `Hello world`. -/
theorem get_context_clipped_witness :
    getContextE wCtx =
      (initDbMaybe wCtx,
       Except.ok
         (String.mk ((wCtx.doc.toList.take 5).drop (5 - 3)),
          String.mk ((wCtx.doc.toList.drop 5).take 2))) ∧
    ((wCtx.doc.toList.take 5).drop (5 - 3)).length ≤ 3 ∧
    ((wCtx.doc.toList.drop 5).take 2).length ≤ 2 ∧
    (initDbMaybe wCtx).doc = wCtx.doc ∧ (initDbMaybe wCtx).sel = wCtx.sel :=
  get_context_clipped wCtx mCtx "3" "2" 3 2 5 rfl rfl rfl rfl rfl rfl (by decide)

/-- Claim C8, corrected: `get_api_logs` returns lines, not entries — the
last `limit` lines of the log file in file (chronological, oldest-first)
order, a suffix of the file's lines of length at most `limit` (for
`limit ≥ 1`); and `show_logs` shows the "no logs" notice exactly when the
log file is absent or has no lines at all, not when no call entries exist
(the file is seeded with an `initializing...` line). -/
theorem get_api_logs_lines (log : Option (List String)) (limit : Nat) (w : World)
    (hl : 1 ≤ limit) :
    (getApiLogs log limit).length ≤ limit ∧
    (getApiLogs log limit) <:+ log.getD [] ∧
    ((w.log = none ∨ w.log = some []) →
      (show_logs w).2 = [Ev.message "No API logs found"]) ∧
    (∀ ls, w.log = some ls → ls ≠ [] →
      (show_logs w).2 =
        [Ev.message ("API Logs:\n\n" ++
          String.join ((getApiLogs w.log 10).map (fun l => l ++ "\n")))]) := by
  refine ⟨?_, ?_, ?_, ?_⟩
  · cases log with
    | none => simp [getApiLogs]
    | some ls =>
        have h0 : limit ≠ 0 := by omega
        simp only [getApiLogs, h0, if_false]
        rw [List.length_drop]
        omega
  · cases log with
    | none => simp [getApiLogs]
    | some ls =>
        by_cases h0 : limit = 0
        · simp [getApiLogs, h0]
        · simp only [getApiLogs, h0, if_false, Option.getD_some]
          exact List.drop_suffix _ _
  · intro h
    rcases h with h | h <;> unfold show_logs <;> rw [h] <;> simp [getApiLogs]
  · intro ls hls hne
    unfold show_logs
    rw [hls]
    have hlen : (getApiLogs (some ls) 10).length = min 10 ls.length := by
      simp only [getApiLogs]
      rw [if_neg (by omega)]
      rw [List.length_drop]
      omega
    have hnonempty : getApiLogs (some ls) 10 ≠ [] := by
      intro hcontra
      have := hlen
      rw [hcontra] at this
      simp at this
      have : ls.length ≠ 0 := fun h => hne (List.eq_nil_of_length_eq_zero h)
      omega
    rw [if_neg hnonempty]

/-- Log world for the `get_api_logs_lines` witness. -/
def wLogW : World :=
  { canonical := none, tmp := none, log := some ["x\n"], doc := "",
    sel := { s := 0, e := 0 } }

/-- Concrete instance of `get_api_logs_lines` with `limit = 1`. -/
theorem get_api_logs_lines_witness :
    (getApiLogs (some ["x\n"]) 1).length ≤ 1 ∧
    (getApiLogs (some ["x\n"]) 1) <:+ (some ["x\n"] : Option (List String)).getD [] ∧
    (show_logs wLogW).2 =
      [Ev.message ("API Logs:\n\n" ++
        String.join ((getApiLogs wLogW.log 10).map (fun l => l ++ "\n")))] := by
  have h := get_api_logs_lines (some ["x\n"]) 1 wLogW (by decide)
  exact ⟨h.1, h.2.1, h.2.2.2 ["x\n"] rfl (by decide)⟩

/-- State with an initialized, entry-free log file: the claim C8
counterexample lives here. -/
def wLogCx : World :=
  { canonical := none, tmp := none, log := some ["initializing...\n"], doc := "",
    sel := { s := 0, e := 0 } }

/-- Counterexample to claim C8 as stated: (a) the log file
`["A\n", "B\n"]` (entry A appended before entry B) is returned by
`get_api_logs` oldest-first, not most-recent-first; (b) in a state whose
log file holds only the `initializing...` seed line — so no call-log entry
exists — `show_logs` presents a log block instead of the "no logs"
notice. -/
theorem get_api_logs_cx :
    getApiLogs (some ["A\n", "B\n"]) 100 = ["A\n", "B\n"] ∧
    (["A\n", "B\n"] : List String) ≠ ["B\n", "A\n"] ∧
    (show_logs wLogCx).2 = [Ev.message "API Logs:\n\ninitializing...\n\n"] ∧
    "API Logs:\n\ninitializing...\n\n" ≠ "No API logs found" := by
  refine ⟨rfl, by decide, ?_, by decide⟩
  rfl

theorem callLlm_eval (w : World) (env : Env) (data : RequestData) (m : ConfigMap)
    (url : String)
    (h1 : (initDbMaybe w).canonical = some (FileVal.mapping m))
    (hurl : lookupKey m "OPENAI_ENDPOINT" = some url) :
    callLlm w env data =
      match env.responder data with
      | HttpResp.success st j =>
          (logApiCall (initDbMaybe w) env.now url (reprRequest data) (reprJson j) st,
           [Ev.http data], Except.ok j)
      | HttpResp.successBad _ => (initDbMaybe w, [Ev.http data], Except.error PyErr.jsonErr)
      | HttpResp.httpError st b =>
          (logApiCall (initDbMaybe w) env.now url (reprRequest data) b st,
           [Ev.http data], Except.error (PyErr.httpErr st b))
      | HttpResp.transportError => (initDbMaybe w, [Ev.http data], Except.error PyErr.urlErr) := by
  simp only [callLlm, getParamE_eq w m _ h1, getParamE_eq2 w m _ h1, hurl]

theorem logApiCall_log (w : World) (now endpoint req resp : String) (status : Nat) :
    (logApiCall w now endpoint req resp status).log =
      some (w.log.getD [] ++ logEntryLines now endpoint req resp status) := rfl

theorem logEntryLines_mem (now endpoint req resp : String) (st : Nat) :
    (" Endpoint: " ++ endpoint ++ " Status Code: " ++ toString st ++ "\n") ∈
      logEntryLines now endpoint req resp st ∧
    ("Request: " ++ req ++ "\n") ∈ logEntryLines now endpoint req resp st ∧
    ("Response: " ++ resp ++ "\n") ∈ logEntryLines now endpoint req resp st := by
  refine ⟨?_, ?_, ?_⟩ <;> simp [logEntryLines]

/-- Claim C2, corrected: `call_llm` appends exactly one log entry — the
block of lines carrying the endpoint, the serialized request body, the
response body (raw error body on an HTTP error) and the status code — when
the attempt yields a parsed 2xx response or an `HTTPError`; but a
transport-level failure (`URLError`, raised before any HTTP response) and a
2xx body that fails JSON decoding escape the `except urllib.error.HTTPError`
clause and append nothing. -/
theorem call_llm_logging (w : World) (env : Env) (data : RequestData)
    (m : ConfigMap) (url : String)
    (h1 : (initDbMaybe w).canonical = some (FileVal.mapping m))
    (hurl : lookupKey m "OPENAI_ENDPOINT" = some url) :
    (∀ st j, env.responder data = HttpResp.success st j →
      (callLlm w env data).1.log =
        some ((initDbMaybe w).log.getD [] ++
          logEntryLines env.now url (reprRequest data) (reprJson j) st) ∧
      (callLlm w env data).2.2 = Except.ok j) ∧
    (∀ st b, env.responder data = HttpResp.httpError st b →
      (callLlm w env data).1.log =
        some ((initDbMaybe w).log.getD [] ++
          logEntryLines env.now url (reprRequest data) b st) ∧
      (callLlm w env data).2.2 = Except.error (PyErr.httpErr st b)) ∧
    (env.responder data = HttpResp.transportError →
      (callLlm w env data).1.log = (initDbMaybe w).log ∧
      (callLlm w env data).2.2 = Except.error PyErr.urlErr) ∧
    (∀ st, env.responder data = HttpResp.successBad st →
      (callLlm w env data).1.log = (initDbMaybe w).log) ∧
    (∀ now endpoint req resp st,
      (" Endpoint: " ++ endpoint ++ " Status Code: " ++ toString st ++ "\n") ∈
        logEntryLines now endpoint req resp st ∧
      ("Request: " ++ req ++ "\n") ∈ logEntryLines now endpoint req resp st ∧
      ("Response: " ++ resp ++ "\n") ∈ logEntryLines now endpoint req resp st) := by
  have hc := callLlm_eval w env data m url h1 hurl
  refine ⟨?_, ?_, ?_, ?_, fun now endpoint req resp st => logEntryLines_mem _ _ _ _ _⟩
  · intro st j hresp
    rw [hc, hresp]
    exact ⟨logApiCall_log _ _ _ _ _ _, rfl⟩
  · intro st b hresp
    rw [hc, hresp]
    exact ⟨logApiCall_log _ _ _ _ _ _, rfl⟩
  · intro hresp
    rw [hc, hresp]
    exact ⟨rfl, rfl⟩
  · intro st hresp
    rw [hc, hresp]

/-- Store for the `call_llm` concrete scenarios. -/
def mLlm : ConfigMap :=
  [("OPENAI_ENDPOINT", "http://x"), ("OPENAI_API_KEY", "sk")]

/-- World for the `call_llm` concrete scenarios. -/
def wLlm : World :=
  { canonical := some (FileVal.mapping mLlm), tmp := none,
    log := some ["initializing...\n"], doc := "", sel := { s := 0, e := 0 } }

/-- Request for the `call_llm` concrete scenarios. -/
def dataLlm : RequestData :=
  { model := some "m", messages := [], temperature := { num := 0, den := 1 },
    maxTokens := none }

/-- Concrete instance of `call_llm_logging`: a 200 response appends the
entry block and the parsed body is returned. -/
theorem call_llm_logging_witness :
    (callLlm wLlm
        { responder := fun _ => HttpResp.success 200 (Json.str "ok"), now := "T",
          promptResult := none, configEdits := none } dataLlm).1.log =
      some ((initDbMaybe wLlm).log.getD [] ++
        logEntryLines "T" "http://x" (reprRequest dataLlm) (reprJson (Json.str "ok")) 200) ∧
    (callLlm wLlm
        { responder := fun _ => HttpResp.success 200 (Json.str "ok"), now := "T",
          promptResult := none, configEdits := none } dataLlm).2.2 =
      Except.ok (Json.str "ok") :=
  (call_llm_logging wLlm
    { responder := fun _ => HttpResp.success 200 (Json.str "ok"), now := "T",
      promptResult := none, configEdits := none } dataLlm mLlm "http://x" rfl rfl).1
    200 (Json.str "ok") rfl

/-- Counterexample to claim C2 as stated: a transport-level failure
(`urllib.error.URLError`, e.g. connection refused) is a failing `call_llm`
invocation, yet the log file is left exactly as it was — zero new entries,
not one — because only `urllib.error.HTTPError` is caught and logged. -/
theorem call_llm_cx :
    (callLlm wLlm
        { responder := fun _ => HttpResp.transportError, now := "T",
          promptResult := none, configEdits := none } dataLlm).1.log =
      some ["initializing...\n"] ∧
    (callLlm wLlm
        { responder := fun _ => HttpResp.transportError, now := "T",
          promptResult := none, configEdits := none } dataLlm).2.2 =
      Except.error PyErr.urlErr ∧
    wLlm.log = some ["initializing...\n"] :=
  ⟨rfl, rfl, rfl⟩

/-- Claim C4: on a non-2xx response, `call_llm` logs exactly one entry
whose response field is the raw error body and whose status is the error
code, and then re-raises the HTTP error carrying that status and raw body;
the returned failure is exactly the HTTP error (the total log write cannot
mask it). -/
theorem call_llm_error_logs_then_raises (w : World) (env : Env)
    (data : RequestData) (m : ConfigMap) (url b : String) (st : Nat)
    (h1 : (initDbMaybe w).canonical = some (FileVal.mapping m))
    (hurl : lookupKey m "OPENAI_ENDPOINT" = some url)
    (hresp : env.responder data = HttpResp.httpError st b) :
    callLlm w env data =
      (logApiCall (initDbMaybe w) env.now url (reprRequest data) b st,
       [Ev.http data], Except.error (PyErr.httpErr st b)) ∧
    (logApiCall (initDbMaybe w) env.now url (reprRequest data) b st).log =
      some ((initDbMaybe w).log.getD [] ++
        logEntryLines env.now url (reprRequest data) b st) ∧
    ("Response: " ++ b ++ "\n") ∈ logEntryLines env.now url (reprRequest data) b st ∧
    (" Endpoint: " ++ url ++ " Status Code: " ++ toString st ++ "\n") ∈
      logEntryLines env.now url (reprRequest data) b st := by
  have hc := callLlm_eval w env data m url h1 hurl
  rw [hc, hresp]
  exact ⟨rfl, logApiCall_log _ _ _ _ _ _,
    (logEntryLines_mem env.now url (reprRequest data) b st).2.2,
    (logEntryLines_mem env.now url (reprRequest data) b st).1⟩

/-- Concrete instance of `call_llm_error_logs_then_raises`: a 401 with raw
body `denied` is logged and re-raised. -/
theorem call_llm_error_witness :
    callLlm wLlm
        { responder := fun _ => HttpResp.httpError 401 "denied", now := "T",
          promptResult := none, configEdits := none } dataLlm =
      (logApiCall (initDbMaybe wLlm) "T" "http://x" (reprRequest dataLlm) "denied" 401,
       [Ev.http dataLlm], Except.error (PyErr.httpErr 401 "denied")) ∧
    (logApiCall (initDbMaybe wLlm) "T" "http://x" (reprRequest dataLlm) "denied" 401).log =
      some ((initDbMaybe wLlm).log.getD [] ++
        logEntryLines "T" "http://x" (reprRequest dataLlm) "denied" 401) ∧
    ("Response: " ++ "denied" ++ "\n") ∈
      logEntryLines "T" "http://x" (reprRequest dataLlm) "denied" 401 ∧
    (" Endpoint: " ++ "http://x" ++ " Status Code: " ++ toString 401 ++ "\n") ∈
      logEntryLines "T" "http://x" (reprRequest dataLlm) "denied" 401 :=
  call_llm_error_logs_then_raises wLlm
    { responder := fun _ => HttpResp.httpError 401 "denied", now := "T",
      promptResult := none, configEdits := none } dataLlm mLlm "http://x" "denied" 401
    rfl rfl rfl

/-- Claim C1: when the stored API key is the empty string, both
`autocomplete` and `transform_text` open the configuration dialog
(`modify_config`), make no HTTP call, and leave the document unchanged. -/
theorem empty_key_opens_config (w : World) (env : Env) (m : ConfigMap)
    (h1 : w.canonical = some (FileVal.mapping m))
    (h2 : lookupKey m "OPENAI_API_KEY" = some "") :
    (Ev.configDialog ∈ (autocomplete w env).2 ∧
     (∀ d, Ev.http d ∉ (autocomplete w env).2) ∧
     (autocomplete w env).1.doc = w.doc) ∧
    (Ev.configDialog ∈ (transform_text w env).2 ∧
     (∀ d, Ev.http d ∉ (transform_text w env).2) ∧
     (transform_text w env).1.doc = w.doc) := by
  have h1' : (initDbMaybe w).canonical = some (FileVal.mapping m) :=
    initDb_canonical_some w _ h1
  have gp := getParamE_eq w m "OPENAI_API_KEY" h1'
  have hevs := modifyConfig_evs (initDbMaybe w) env m (by rw [initDb_idem]; exact h1')
  have hdoc := modifyConfig_doc (initDbMaybe w) env
  rcases hm : modifyConfig (initDbMaybe w) env with ⟨w2, evs, err⟩
  rw [hm] at hevs hdoc
  simp only [] at hevs hdoc
  constructor
  · have hred : autocomplete w env =
        (match (w2, evs, err) with
         | (w2, evs, some e) => (w2, evs ++ errorTrace e)
         | (w2, evs, none) => (w2, evs)) := by
      simp only [autocomplete, gp, h2, pyFalsyStr, decide_True, if_true, hm]
    rw [hred]
    cases err with
    | none =>
        refine ⟨?_, ?_, hdoc.trans (initDb_doc w)⟩
        · rcases hevs with h | h <;> rw [h] <;> simp
        · intro d hd
          rcases hevs with h | h <;> rw [h] at hd <;> simp at hd
    | some e =>
        refine ⟨?_, ?_, hdoc.trans (initDb_doc w)⟩
        · rcases hevs with h | h <;> rw [h] <;> simp
        · intro d hd
          rcases hevs with h | h <;> rw [h] at hd <;> simp [errorTrace] at hd
  · have hred : transform_text w env =
        (match (w2, evs, err) with
         | (w2, evs, some e) => (w2, evs ++ errorTrace e)
         | (w2, evs, none) => (w2, evs)) := by
      simp only [transform_text, gp, h2, pyFalsyStr, decide_True, if_true, hm]
    rw [hred]
    cases err with
    | none =>
        refine ⟨?_, ?_, hdoc.trans (initDb_doc w)⟩
        · rcases hevs with h | h <;> rw [h] <;> simp
        · intro d hd
          rcases hevs with h | h <;> rw [h] at hd <;> simp at hd
    | some e =>
        refine ⟨?_, ?_, hdoc.trans (initDb_doc w)⟩
        · rcases hevs with h | h <;> rw [h] <;> simp
        · intro d hd
          rcases hevs with h | h <;> rw [h] at hd <;> simp [errorTrace] at hd

/-- Store with an empty API key, for the C1 witness. -/
def mNoKey : ConfigMap := [("OPENAI_API_KEY", "")]

/-- World with an empty API key, for the C1 witness. -/
def wNoKey : World :=
  { canonical := some (FileVal.mapping mNoKey), tmp := none, log := none,
    doc := "text", sel := { s := 2, e := 2 } }

/-- Environment for the C1 witness (no dialog confirmation). -/
def envNoKey : Env :=
  { responder := fun _ => HttpResp.transportError, now := "T",
    promptResult := none, configEdits := none }

/-- Concrete instance of `empty_key_opens_config`. -/
theorem empty_key_opens_config_witness :
    (Ev.configDialog ∈ (autocomplete wNoKey envNoKey).2 ∧
     (∀ d, Ev.http d ∉ (autocomplete wNoKey envNoKey).2) ∧
     (autocomplete wNoKey envNoKey).1.doc = wNoKey.doc) ∧
    (Ev.configDialog ∈ (transform_text wNoKey envNoKey).2 ∧
     (∀ d, Ev.http d ∉ (transform_text wNoKey envNoKey).2) ∧
     (transform_text wNoKey envNoKey).1.doc = wNoKey.doc) :=
  empty_key_opens_config wNoKey envNoKey mNoKey rfl rfl

theorem fst_of_getParamE {w w1 : World} {k : String} {r : Except PyErr (Option String)}
    (h : getParamE w k = (w1, r)) : w1 = initDbMaybe w := by
  have := getParamE_fst w k
  rw [h] at this
  exact this

theorem getContextE_fst (w : World) : (getContextE w).1 = initDbMaybe w := by
  unfold getContextE
  split
  · next w1 e heq => exact fst_of_getParamE heq
  · next w1 ps heq =>
      have hw1 : w1 = initDbMaybe w := fst_of_getParamE heq
      split
      · exact hw1
      · next np heq2 =>
          split
          · next w2 e heq3 =>
              have := fst_of_getParamE heq3
              rw [this, hw1, initDb_idem]
          · next w2 ns heq3 =>
              have hw2 : w2 = initDbMaybe w := by
                have := fst_of_getParamE heq3
                rw [this, hw1, initDb_idem]
              split
              · exact hw2
              · exact hw2

theorem getContextE_eval (w : World) (m : ConfigMap) (ps ns : String) (np nn : Int)
    (h1 : (initDbMaybe w).canonical = some (FileVal.mapping m))
    (hp : lookupKey m "CONTEXT_PREVIOUS_CHARS" = some ps)
    (hpi : parsePyInt ps = some np)
    (hn : lookupKey m "CONTEXT_NEXT_CHARS" = some ns)
    (hni : parsePyInt ns = some nn) :
    getContextE w =
      (initDbMaybe w,
       Except.ok
         (cGetString w.doc (goLeft (mkCursorByRange w.sel) np),
          cGetString w.doc (goRight w.doc.toList.length (mkCursorByRange w.sel) nn))) := by
  simp only [getContextE, getParamE_eq w m _ h1, getParamE_eq2 w m _ h1, hp, hn,
    pyIntOfOpt, hpi, hni, initDb_doc, initDb_sel]

theorem callLlm_evs (w : World) (env : Env) (data : RequestData) (m : ConfigMap)
    (url : String)
    (h1 : (initDbMaybe w).canonical = some (FileVal.mapping m))
    (hurl : lookupKey m "OPENAI_ENDPOINT" = some url) :
    (callLlm w env data).2.1 = [Ev.http data] := by
  rw [callLlm_eval w env data m url h1 hurl]
  cases env.responder data <;> rfl

theorem no_http_before (evs : List Ev) (h : ∀ d, Ev.http d ∉ evs) :
    ∀ pre suf, evs = pre ++ suf → (∃ d, Ev.http d ∈ pre) → Ev.prompt ∈ pre := by
  intro pre suf he hd
  rcases hd with ⟨d, hd⟩
  exact absurd (by rw [he]; exact List.mem_append_left suf hd) (h d)

theorem prompt_head_before (rest : List Ev) :
    ∀ pre suf, Ev.prompt :: rest = pre ++ suf →
      (∃ d, Ev.http d ∈ pre) → Ev.prompt ∈ pre := by
  intro pre suf he hd
  cases pre with
  | nil =>
      rcases hd with ⟨d, hd⟩
      cases hd
  | cons x p' =>
      have hx : Ev.prompt = x := by
        injection he with hh _
      rw [← hx]
      exact List.mem_cons_self _ _

theorem transform_cases (w : World) (env : Env) (m : ConfigMap) (k : String)
    (h1 : w.canonical = some (FileVal.mapping m))
    (h2 : lookupKey m "OPENAI_API_KEY" = some k)
    (h3 : k ≠ "") :
    (∃ e, (transform_text w env).2 = [Ev.errorDialog e] ∧
      (transform_text w env).1.doc = w.doc) ∨
    (rangeGetString w.doc w.sel = "" ∧ (transform_text w env).2 = [] ∧
      (transform_text w env).1.doc = w.doc) ∨
    (rangeGetString w.doc w.sel ≠ "" ∧ env.promptResult = none ∧
      (transform_text w env).2 = [Ev.prompt] ∧
      (transform_text w env).1.doc = w.doc) ∨
    (rangeGetString w.doc w.sel ≠ "" ∧ (∃ pr, env.promptResult = some pr) ∧
      ∃ rest, (transform_text w env).2 = Ev.prompt :: rest) := by
  have h1' : (initDbMaybe w).canonical = some (FileVal.mapping m) :=
    initDb_canonical_some w _ h1
  have gp := getParamE_eq w m "OPENAI_API_KEY" h1'
  have hfalse : pyFalsyStr (lookupKey m "OPENAI_API_KEY") = false := by
    rw [h2]
    exact decide_eq_false h3
  simp only [transform_text, gp, hfalse, Bool.false_eq_true, if_false,
    initDb_doc, initDb_sel]
  rcases hgc : getContextE (initDbMaybe w) with ⟨w2, r⟩
  have hw2 : w2.doc = w.doc := by
    have h4 : w2 = initDbMaybe (initDbMaybe w) := by
      have := getContextE_fst (initDbMaybe w)
      rw [hgc] at this
      exact this
    rw [h4, initDb_idem, initDb_doc]
  cases r with
  | error e => exact Or.inl ⟨e, rfl, hw2⟩
  | ok pn =>
      dsimp only
      by_cases hsel : rangeGetString w.doc w.sel = ""
      · rw [if_pos hsel]
        exact Or.inr (Or.inl ⟨hsel, rfl, hw2⟩)
      · rw [if_neg hsel]
        rcases hpr : env.promptResult with _ | ⟨instr0, keepOrig⟩
        · exact Or.inr (Or.inr (Or.inl ⟨hsel, rfl, rfl, hw2⟩))
        · refine Or.inr (Or.inr (Or.inr ⟨hsel, ⟨(instr0, keepOrig), rfl⟩, ?_⟩))
          dsimp only
          repeat' split
          all_goals exact ⟨_, rfl⟩

/-- Claim C7: with a non-empty API key, `transform_text` (a) is a no-op on
an empty selection — no HTTP call, no document mutation; (b) never issues
an HTTP call before the instruction prompt has appeared (every prefix of
the event trace containing an HTTP event contains the prompt event); and
(c) is a no-op when the user cancels the prompt. -/
theorem transform_gating (w : World) (env : Env) (m : ConfigMap) (k : String)
    (h1 : w.canonical = some (FileVal.mapping m))
    (h2 : lookupKey m "OPENAI_API_KEY" = some k)
    (h3 : k ≠ "") :
    (rangeGetString w.doc w.sel = "" →
      (∀ d, Ev.http d ∉ (transform_text w env).2) ∧
      (transform_text w env).1.doc = w.doc) ∧
    (∀ pre suf, (transform_text w env).2 = pre ++ suf →
      (∃ d, Ev.http d ∈ pre) → Ev.prompt ∈ pre) ∧
    (env.promptResult = none →
      (∀ d, Ev.http d ∉ (transform_text w env).2) ∧
      (transform_text w env).1.doc = w.doc) := by
  rcases transform_cases w env m k h1 h2 h3 with
    ⟨e, hev, hdoc⟩ | ⟨hs, hev, hdoc⟩ | ⟨hs, hpr, hev, hdoc⟩ | ⟨hs, ⟨pr, hpr⟩, rest, hev⟩
  · have hnh : ∀ d, Ev.http d ∉ (transform_text w env).2 := by
      intro d hd
      rw [hev] at hd
      simp at hd
    exact ⟨fun _ => ⟨hnh, hdoc⟩,
      fun pre suf he => no_http_before _ hnh pre suf he,
      fun _ => ⟨hnh, hdoc⟩⟩
  · have hnh : ∀ d, Ev.http d ∉ (transform_text w env).2 := by
      intro d hd
      rw [hev] at hd
      simp at hd
    exact ⟨fun _ => ⟨hnh, hdoc⟩,
      fun pre suf he => no_http_before _ hnh pre suf he,
      fun _ => ⟨hnh, hdoc⟩⟩
  · have hnh : ∀ d, Ev.http d ∉ (transform_text w env).2 := by
      intro d hd
      rw [hev] at hd
      simp at hd
    exact ⟨fun hsel => absurd hsel hs,
      fun pre suf he => no_http_before _ hnh pre suf he,
      fun _ => ⟨hnh, hdoc⟩⟩
  · refine ⟨fun hsel => absurd hsel hs, ?_, fun hnone => ?_⟩
    · intro pre suf he
      rw [hev] at he
      exact prompt_head_before rest pre suf he
    · rw [hpr] at hnone
      cases hnone

/-- Claim C10: when the user confirms the instruction prompt with an empty
instruction, `transform_text` does not no-op: the fixed default instruction
becomes the system message and the LLM call proceeds (the prompt event is
followed by the HTTP event carrying that request). -/
theorem transform_default_instruction (w : World) (env : Env) (m : ConfigMap)
    (k ps ns ts url : String) (np nn : Int) (t : PyFloat) (b : Bool) (D : RequestData)
    (h1 : w.canonical = some (FileVal.mapping m))
    (h2 : lookupKey m "OPENAI_API_KEY" = some k)
    (h3 : k ≠ "")
    (hsel : rangeGetString w.doc w.sel ≠ "")
    (hprompt : env.promptResult = some ("", b))
    (hp : lookupKey m "CONTEXT_PREVIOUS_CHARS" = some ps)
    (hpi : parsePyInt ps = some np)
    (hn : lookupKey m "CONTEXT_NEXT_CHARS" = some ns)
    (hni : parsePyInt ns = some nn)
    (ht : lookupKey m "TEMPERATURE" = some ts)
    (hti : parsePyFloat ts = some t)
    (hurl : lookupKey m "OPENAI_ENDPOINT" = some url)
    (hD : D =
      { model := lookupKey m "MODEL",
        messages :=
          [{ role := "system", content := some defaultTransformInstr },
           { role := "user",
             content := some (transformUserContent
               (cGetString w.doc (goLeft (mkCursorByRange w.sel) np))
               (rangeGetString w.doc w.sel)
               (cGetString w.doc
                 (goRight w.doc.toList.length (mkCursorByRange w.sel) nn))) }],
        temperature := t, maxTokens := none }) :
    ∃ rest, (transform_text w env).2 = Ev.prompt :: Ev.http D :: rest := by
  have h1p : (initDbMaybe w).canonical = some (FileVal.mapping m) :=
    initDb_canonical_some w _ h1
  have h1q : (initDbMaybe (initDbMaybe w)).canonical = some (FileVal.mapping m) := by
    rw [initDb_idem]
    exact h1p
  have gp := getParamE_eq w m "OPENAI_API_KEY" h1p
  have hfalse : pyFalsyStr (lookupKey m "OPENAI_API_KEY") = false := by
    rw [h2]
    exact decide_eq_false h3
  have hctx := getContextE_eval (initDbMaybe w) m ps ns np nn h1q hp hpi hn hni
  rw [initDb_idem] at hctx
  simp only [initDb_doc, initDb_sel] at hctx
  simp only [transform_text, gp, hfalse, Bool.false_eq_true, if_false, hctx,
    initDb_doc, initDb_sel, hprompt]
  rw [if_neg hsel]
  rw [getParamE_eq2 w m "MODEL" h1p]
  dsimp only
  rw [getParamE_eq2 w m "TEMPERATURE" h1p]
  dsimp only
  simp only [ht, pyFloatOfOpt, hti, if_true]
  rw [← hD]
  split
  · next w5 evs e heq =>
      have hevs : evs = [Ev.http D] := by
        have hc := callLlm_evs (initDbMaybe w) env D m url h1q hurl
        rw [heq] at hc
        exact hc
      rw [hevs]
      exact ⟨_, rfl⟩
  · next w5 evs j heq =>
      have hevs : evs = [Ev.http D] := by
        have hc := callLlm_evs (initDbMaybe w) env D m url h1q hurl
        rw [heq] at hc
        exact hc
      rw [hevs]
      split
      · split
        · exact ⟨_, rfl⟩
        · exact ⟨_, rfl⟩
      · exact ⟨_, rfl⟩

/-- Store for the C7 witness. -/
def mKeyOnly : ConfigMap := [("OPENAI_API_KEY", "sk")]

/-- World with an empty (collapsed) selection for the C7 witness. -/
def wSel0 : World :=
  { canonical := some (FileVal.mapping mKeyOnly), tmp := none, log := none,
    doc := "ab", sel := { s := 1, e := 1 } }

/-- Environment for the C7 witness (prompt would be cancelled). -/
def envSel0 : Env :=
  { responder := fun _ => HttpResp.transportError, now := "T",
    promptResult := none, configEdits := none }

/-- Concrete instance of `transform_gating`: empty selection means no HTTP
call and no document change. -/
theorem transform_gating_witness :
    (transform_text wSel0 envSel0).1.doc = wSel0.doc ∧
    Ev.http dataLlm ∉ (transform_text wSel0 envSel0).2 := by
  have h := transform_gating wSel0 envSel0 mKeyOnly "sk" rfl rfl (by decide)
  exact ⟨(h.1 rfl).2, (h.1 rfl).1 dataLlm⟩

/-- Store for the C10 witness. -/
def mT10 : ConfigMap :=
  [("OPENAI_ENDPOINT", "http://x"), ("OPENAI_API_KEY", "sk"), ("MODEL", "gpt-4o"),
   ("CONTEXT_PREVIOUS_CHARS", "100"), ("CONTEXT_NEXT_CHARS", "100"),
   ("TEMPERATURE", "0.7")]

/-- World with `hello` selected for the C10 witness. -/
def wT10 : World :=
  { canonical := some (FileVal.mapping mT10), tmp := none, log := none,
    doc := "hello", sel := { s := 0, e := 5 } }

/-- Environment for the C10 witness: the user confirms the prompt with an
empty instruction. -/
def envT10 : Env :=
  { responder := fun _ => HttpResp.transportError, now := "T",
    promptResult := some ("", true), configEdits := none }

/-- The request `transform_text` builds in the C10 witness scenario. -/
def dT10 : RequestData :=
  { model := lookupKey mT10 "MODEL",
    messages :=
      [{ role := "system", content := some defaultTransformInstr },
       { role := "user",
         content := some (transformUserContent
           (cGetString wT10.doc (goLeft (mkCursorByRange wT10.sel) 100))
           (rangeGetString wT10.doc wT10.sel)
           (cGetString wT10.doc
             (goRight wT10.doc.toList.length (mkCursorByRange wT10.sel) 100))) }],
    temperature := { num := 7, den := 10 }, maxTokens := none }

/-- Concrete instance of `transform_default_instruction`. -/
theorem transform_default_instruction_witness :
    ∃ rest, (transform_text wT10 envT10).2 = Ev.prompt :: Ev.http dT10 :: rest :=
  transform_default_instruction wT10 envT10 mT10 "sk" "100" "100" "0.7" "http://x"
    100 100 { num := 7, den := 10 } true dT10 rfl rfl (by decide) (by decide) rfl rfl
    (by decide) rfl (by decide) rfl (by decide) rfl rfl

/-- Claim C5: a successful `autocomplete` with a non-empty API key sends
exactly one HTTP request whose user message is literally
`<before>[COMPLETE HERE]<after>` built from the extracted context, whose
temperature is the configured value and whose `max_tokens` cap is
`MAX_GENERATION_WORDS * 4`; it replaces the cursor range's content with
`choices[0].message.content` of the response and appends exactly one log
entry with the response status. -/
theorem autocomplete_success (w : World) (env : Env) (m : ConfigMap)
    (k ps ns ws ts url : String) (np nn nw : Int) (t : PyFloat)
    (st : Nat) (body : Json) (c : String) (D : RequestData)
    (h1 : w.canonical = some (FileVal.mapping m))
    (h2 : lookupKey m "OPENAI_API_KEY" = some k)
    (h3 : k ≠ "")
    (hp : lookupKey m "CONTEXT_PREVIOUS_CHARS" = some ps)
    (hpi : parsePyInt ps = some np)
    (hn : lookupKey m "CONTEXT_NEXT_CHARS" = some ns)
    (hni : parsePyInt ns = some nn)
    (ht : lookupKey m "TEMPERATURE" = some ts)
    (hti : parsePyFloat ts = some t)
    (hw : lookupKey m "MAX_GENERATION_WORDS" = some ws)
    (hwi : parsePyInt ws = some nw)
    (hurl : lookupKey m "OPENAI_ENDPOINT" = some url)
    (hD : D =
      { model := lookupKey m "MODEL",
        messages :=
          [{ role := "system",
             content := lookupKey m "AUTOCOMPLETE_ADDITIONAL_INSTRUCTIONS" },
           { role := "user",
             content := some
               (cGetString w.doc (goLeft (mkCursorByRange w.sel) np) ++
                "[COMPLETE HERE]" ++
                cGetString w.doc
                  (goRight w.doc.toList.length (mkCursorByRange w.sel) nn)) }],
        temperature := t, maxTokens := some (nw * 4) })
    (hresp : env.responder D = HttpResp.success st body)
    (htruthy : pyTruthy body = true)
    (hext : extractContent body = some c) :
    (autocomplete w env).2 = [Ev.http D] ∧
    (autocomplete w env).1.doc =
      String.mk (w.doc.toList.take w.sel.s ++ c.toList ++ w.doc.toList.drop w.sel.e) ∧
    (autocomplete w env).1.log =
      some ((initDbMaybe w).log.getD [] ++
        logEntryLines env.now url (reprRequest D) (reprJson body) st) := by
  have h1p : (initDbMaybe w).canonical = some (FileVal.mapping m) :=
    initDb_canonical_some w _ h1
  have h1q : (initDbMaybe (initDbMaybe w)).canonical = some (FileVal.mapping m) := by
    rw [initDb_idem]
    exact h1p
  have gp := getParamE_eq w m "OPENAI_API_KEY" h1p
  have hfalse : pyFalsyStr (lookupKey m "OPENAI_API_KEY") = false := by
    rw [h2]
    exact decide_eq_false h3
  have hctx := getContextE_eval (initDbMaybe w) m ps ns np nn h1q hp hpi hn hni
  rw [initDb_idem] at hctx
  simp only [initDb_doc, initDb_sel] at hctx
  have hcall := callLlm_eval (initDbMaybe w) env D m url h1q hurl
  simp only [autocomplete, gp, hfalse, Bool.false_eq_true, if_false, hctx,
    initDb_doc, initDb_sel]
  rw [getParamE_eq2 w m "MAX_GENERATION_WORDS" h1p]
  dsimp only
  rw [getParamE_eq2 w m "MODEL" h1p]
  dsimp only
  rw [getParamE_eq2 w m "AUTOCOMPLETE_ADDITIONAL_INSTRUCTIONS" h1p]
  dsimp only
  rw [getParamE_eq2 w m "TEMPERATURE" h1p]
  dsimp only
  simp only [ht, pyFloatOfOpt, hti]
  rw [getParamE_eq2 w m "MAX_GENERATION_WORDS" h1p]
  dsimp only
  simp only [hw, pyIntOfOpt, hwi]
  rw [← hD]
  simp only [hcall, hresp, htruthy, eq_self_iff_true, if_true, hext]
  refine ⟨trivial, ?_, ?_⟩
  · rw [initDb_idem]
    rfl
  · rw [initDb_idem]
    rfl

/-- Configuration of the claimed end-to-end autocomplete scenario
(`MAX_GENERATION_WORDS=5`, `TEMPERATURE=0.7`). -/
def mAc : ConfigMap :=
  [("OPENAI_ENDPOINT", "http://x"), ("OPENAI_API_KEY", "sk"), ("MODEL", "gpt-4o"),
   ("MAX_GENERATION_WORDS", "5"), ("CONTEXT_PREVIOUS_CHARS", "100"),
   ("CONTEXT_NEXT_CHARS", "100"), ("TEMPERATURE", "0.7"),
   ("AUTOCOMPLETE_ADDITIONAL_INSTRUCTIONS", "SYS")]

/-- World of the end-to-end scenario: cursor at the end of `The sky is`. -/
def wAc : World :=
  { canonical := some (FileVal.mapping mAc), tmp := none,
    log := some ["initializing...\n"], doc := "The sky is",
    sel := { s := 10, e := 10 } }

/-- The scenario response `{"choices":[{"message":{"content":" blue today."}}]}`. -/
def bodyAc : Json :=
  Json.obj [("choices", Json.arr [Json.obj [("message",
    Json.obj [("content", Json.str " blue today.")])]])]

/-- Environment of the end-to-end scenario: the endpoint answers 200. -/
def envAc : Env :=
  { responder := fun _ => HttpResp.success 200 bodyAc, now := "T",
    promptResult := none, configEdits := none }

/-- The request `autocomplete` builds in the end-to-end scenario. -/
def dAc : RequestData :=
  { model := lookupKey mAc "MODEL",
    messages :=
      [{ role := "system",
         content := lookupKey mAc "AUTOCOMPLETE_ADDITIONAL_INSTRUCTIONS" },
       { role := "user",
         content := some
           (cGetString wAc.doc (goLeft (mkCursorByRange wAc.sel) 100) ++
            "[COMPLETE HERE]" ++
            cGetString wAc.doc
              (goRight wAc.doc.toList.length (mkCursorByRange wAc.sel) 100)) }],
    temperature := { num := 7, den := 10 }, maxTokens := some (5 * 4) }

/-- Concrete instance of `autocomplete_success`: the claimed scenario.  The
final conjuncts restate the outcome on literals: the document becomes
`The sky is blue today.`, the user message is
`The sky is[COMPLETE HERE]` and one entry with status 200 was appended. -/
theorem autocomplete_success_witness :
    ((autocomplete wAc envAc).2 = [Ev.http dAc] ∧
     (autocomplete wAc envAc).1.doc =
       String.mk (wAc.doc.toList.take wAc.sel.s ++ " blue today.".toList ++
         wAc.doc.toList.drop wAc.sel.e) ∧
     (autocomplete wAc envAc).1.log =
       some ((initDbMaybe wAc).log.getD [] ++
         logEntryLines "T" "http://x" (reprRequest dAc) (reprJson bodyAc) 200)) ∧
    (autocomplete wAc envAc).1.doc = "The sky is blue today." ∧
    (dAc.messages.map Msg.content) = [some "SYS", some "The sky is[COMPLETE HERE]"] :=
  ⟨autocomplete_success wAc envAc mAc "sk" "100" "100" "5" "0.7" "http://x"
      100 100 5 { num := 7, den := 10 } 200 bodyAc " blue today." dAc
      rfl rfl (by decide) rfl (by decide) rfl (by decide) rfl (by decide) rfl
      (by decide) rfl rfl rfl rfl rfl,
   by decide, by decide⟩
